import Mathlib

/-!
Shallow embedding of the Job_Mapper pipeline (backend/app/agents/*).

Modelling conventions:
* Python dicts with a known key set become structures whose fields are
  `Option String` (a `none` field models an absent key; `Option.getD`
  models `dict.get(key, default)`).
* External effects (DuckDuckGo search, HTTP fetch, the LLM call, the
  Nominatim lookup, the embedding/upsert call, `db.add` and `db.commit`)
  become oracle functions passed in as parameters; `none` / `false`
  models the call raising an exception or returning no result.
* Float coordinates become rationals: the source only ever compares and
  copies the decimal literals of the city table, so `Rat` represents the
  relevant behaviour exactly.
* `time.sleep`, timestamps and log output are not modelled.
-/

namespace JobMapper

/-- Boolean test that the first character list begins the second, used to
build the substring test below. -/
def beginsWith : List Char → List Char → Bool
  | [], _ => true
  | _ :: _, [] => false
  | a :: as, b :: bs => a == b && beginsWith as bs

/-- Boolean substring containment on character lists: the Python
expression "pat in s". -/
def hasSub (pat : List Char) : List Char → Bool
  | [] => pat.isEmpty
  | s@(_ :: rest) => beginsWith pat s || hasSub pat rest

/-- String form of the Python containment test "pat in s". -/
def subIn (pat s : String) : Bool := hasSub pat.data s.data

/-- The Python slice s[:n]: the first n characters of the string. -/
def pyTrunc (s : String) (n : Nat) : String := ⟨s.data.take n⟩

/-- The Python string method lower(): lowercase every character. -/
def pyLower (s : String) : String := ⟨s.data.map Char.toLower⟩

/-- The Python string method strip(): drop leading and trailing
whitespace. -/
def pyStrip (s : String) : String :=
  ⟨((s.data.dropWhile Char.isWhitespace).reverse.dropWhile
      Char.isWhitespace).reverse⟩

/-- One Python dict as it flows between the agents.  The agents only ever
read the keys title, url, snippet, source_query, content (pipeline dicts)
and title, href, body (raw DuckDuckGo results), so one structure with
optional fields covers every dict in the data flow. -/
structure PyDict where
  title : Option String := none
  url : Option String := none
  snippet : Option String := none
  source_query : Option String := none
  content : Option String := none
  href : Option String := none
  body : Option String := none
  deriving Repr, DecidableEq

/-- Structured job record produced by the extraction agent
(extraction.ExtractedJob, a pydantic model). -/
structure ExtractedJob where
  job_title : String
  company : String
  location : String
  apply_url : Option String := none
  description : Option String := none
  deriving Repr, DecidableEq

/-- Job with coordinates (geocoding.GeocodedJob extends ExtractedJob). -/
structure GeocodedJob extends ExtractedJob where
  lat : ℚ
  lng : ℚ
  deriving Repr, DecidableEq

/- ---------------- Agent 1: web_search.WebSearchAgent ---------------- -/

/-- Default search queries of the web search agent (DEFAULT_QUERIES). -/
def DEFAULT_QUERIES : List String :=
  ["software engineer jobs India hiring 2024",
   "developer jobs Bangalore hiring",
   "tech jobs Mumbai hiring now",
   "remote jobs India software",
   "startup jobs Delhi NCR"]

/-- The url key of an accumulated search-result dict; the run method
always stores this key, so the direct Python access r[url] is total. -/
def dictUrl (d : PyDict) : String := d.url.getD ""

/-- The final dedup loop of WebSearchAgent.run: walk the accumulated
results keeping a seen-url set, keep a result only when its url was not
seen before. -/
def dedupByUrl : List PyDict → List String → List PyDict
  | [], _ => []
  | r :: rs, seen =>
    if dictUrl r ∈ seen then dedupByUrl rs seen
    else r :: dedupByUrl rs (dictUrl r :: seen)

/-- WebSearchAgent.run.  The oracle ddgs models one call of
ddgs.text(q, region, max_results): none is a raised exception (that
query is skipped), some rs is the raw result list.  A falsy (empty)
query string selects the first two default queries. -/
def webSearchRun (ddgs : String → Option (List PyDict)) (query : String) :
    List PyDict :=
  let queries := if query = "" then DEFAULT_QUERIES.take 2 else [query]
  let results := queries.foldl (fun acc q =>
    match ddgs q with
    | none => acc
    | some rs => acc ++ rs.map (fun r =>
        { title := some (r.title.getD ""), url := some (r.href.getD ""),
          snippet := some (r.body.getD ""), source_query := some q })) []
  dedupByUrl results []

/- ---------------- Agent 2: scraper.ScraperAgent ---------------- -/

/-- ScraperAgent scrape of a single url.  The oracle fetch models the
GET request plus HTML stripping: none is any transport or status error,
some text is the whitespace-joined plain text.  An empty text is falsy
in Python, so it yields None; otherwise the text is truncated to 5000
characters. -/
def scrapeUrl (fetch : String → Option String) (url : String) :
    Option String :=
  match fetch url with
  | none => none
  | some text => if text = "" then none else some (pyTrunc text 5000)

/-- The per-item loop of ScraperAgent.run over the (already capped)
hit list: skip an item with a falsy url, skip an item whose scrape
returns None, otherwise emit the page dict. -/
def scrapeLoop (fetch : String → Option String) : List PyDict → List PyDict
  | [] => []
  | item :: rest =>
    let url := item.url.getD ""
    if url = "" then scrapeLoop fetch rest
    else
      match scrapeUrl fetch url with
      | none => scrapeLoop fetch rest
      | some c =>
        { url := some url, title := some (item.title.getD ""),
          snippet := some (item.snippet.getD ""), content := some c } ::
          scrapeLoop fetch rest

/-- ScraperAgent.run: process at most the first 10 hits. -/
def scraperRun (fetch : String → Option String) (urls : List PyDict) :
    List PyDict :=
  scrapeLoop fetch (urls.take 10)

/- ---------------- Agent 3: extraction.ExtractionAgent ---------------- -/

/-- ExtractionAgent private mock extraction, used when no OpenAI key is
configured: one ExtractedJob per input dict, no skipping.  Note that
dict.get(key, default) only falls back when the key is absent, so a
present-but-empty title yields an empty job_title. -/
def mockExtract (scraped : List PyDict) : List ExtractedJob :=
  scraped.map (fun item =>
    { job_title := item.title.getD "Software Engineer",
      company := "Unknown Company",
      location := "India",
      apply_url := some (item.url.getD ""),
      description := some (pyTrunc (item.snippet.getD "") 200) })

/-- The LLM loop of ExtractionAgent.run.  The oracle llm models one
structured-output completion on the first 3000 characters of the
content: none is a raised request error (the page is skipped), some r
is the parsed ExtractedJob.  A page with falsy content is skipped; when
the model left apply_url falsy it is replaced by the page url. -/
def extractLoopLLM (llm : String → Option ExtractedJob) :
    List PyDict → List ExtractedJob
  | [] => []
  | item :: rest =>
    let content := item.content.getD ""
    if content = "" then extractLoopLLM llm rest
    else
      match llm (pyTrunc content 3000) with
      | none => extractLoopLLM llm rest
      | some r =>
        (if r.apply_url.getD "" = ""
         then { r with apply_url := some (item.url.getD "") }
         else r) :: extractLoopLLM llm rest

/-- ExtractionAgent.run: strategy selection made once from the presence
of the OpenAI credential — none selects the mock fallback, some llm the
LLM loop. -/
def extractionRun (llm : Option (String → Option ExtractedJob))
    (scraped : List PyDict) : List ExtractedJob :=
  match llm with
  | none => mockExtract scraped
  | some f => extractLoopLLM f scraped

/- ---------------- Agent 4: geocoding.GeocodingAgent ---------------- -/

/-- The static city table CITY_CACHE, in Python dict insertion order
(dict iteration order is insertion order). -/
def CITY_CACHE : List (String × ℚ × ℚ) :=
  [("bangalore", 12.9716, 77.5946),
   ("bengaluru", 12.9716, 77.5946),
   ("mumbai", 19.0760, 72.8777),
   ("delhi", 28.6139, 77.2090),
   ("new delhi", 28.6139, 77.2090),
   ("hyderabad", 17.3850, 78.4867),
   ("chennai", 13.0827, 80.2707),
   ("pune", 18.5204, 73.8567),
   ("kolkata", 22.5726, 88.3639),
   ("gurgaon", 28.4595, 77.0266),
   ("gurugram", 28.4595, 77.0266),
   ("noida", 28.5355, 77.3910),
   ("ahmedabad", 23.0225, 72.5714),
   ("jaipur", 26.9124, 75.7873),
   ("remote", 20.5937, 78.9629),
   ("india", 20.5937, 78.9629)]

/-- The cache scan of GeocodingAgent: first table key contained as a
substring in the normalised location wins. -/
def cacheLookup (locationLower : String) : Option (ℚ × ℚ) :=
  (CITY_CACHE.find? (fun kv => subIn kv.1 locationLower)).map (fun kv => kv.2)

/-- The fixed default centre coordinate (India centre). -/
def DEFAULT_CENTER : ℚ × ℚ := (20.5937, 78.9629)

/-- GeocodingAgent private geocode of one location string.  The oracle
nominatim models self.geolocator.geocode on the suffixed query: none is
a timeout, a service error or no result, some c the found coordinates.
A falsy (empty) location short-circuits to the default centre; a cache
hit returns without consulting the oracle. -/
def geocodeLocation (nominatim : String → Option (ℚ × ℚ))
    (location : String) : ℚ × ℚ :=
  if location = "" then DEFAULT_CENTER
  else
    let locationLower := pyStrip (pyLower location)
    match cacheLookup locationLower with
    | some coords => coords
    | none =>
      match nominatim (location ++ ", India") with
      | some r => r
      | none => DEFAULT_CENTER

/-- GeocodingAgent.run: geocode each job location and rebuild the job
with the coordinates merged in, every other field copied unchanged. -/
def geocodingRun (nominatim : String → Option (ℚ × ℚ))
    (jobs : List ExtractedJob) : List GeocodedJob :=
  jobs.map (fun job =>
    let c := geocodeLocation nominatim job.location
    { job_title := job.job_title, company := job.company,
      location := job.location, apply_url := job.apply_url,
      description := job.description, lat := c.1, lng := c.2 })

/- ---------------- Agent 5: indexing.IndexingAgent ---------------- -/

/-- One relational row as built for JobPostingDB (timestamps omitted). -/
structure DBRow where
  id : String
  job_title : String
  company : String
  location : String
  apply_url : String
  lat : ℚ
  lng : ℚ
  text : Option String
  source : Option String
  embedding_id : Option String
  deriving Repr, DecidableEq

/-- One element of the in-memory result list built by IndexingAgent.run
(the indexed_at timestamp is omitted). -/
structure IndexedRec where
  id : String
  job_title : String
  company : String
  location : String
  lat : ℚ
  lng : ℚ
  deriving Repr, DecidableEq

/-- The result dict appended for one job. -/
def mkIndexedRec (jid : String) (job : GeocodedJob) : IndexedRec :=
  { id := jid, job_title := job.job_title, company := job.company,
    location := job.location, lat := job.lat, lng := job.lng }

/-- The JobPostingDB row added for one job (apply_url uses the Python
expression job.apply_url or empty-string). -/
def mkDBRow (jid : String) (job : GeocodedJob) (eid : Option String) :
    DBRow :=
  { id := jid, job_title := job.job_title, company := job.company,
    location := job.location, apply_url := job.apply_url.getD "",
    lat := job.lat, lng := job.lng, text := job.description,
    source := some "pipeline", embedding_id := eid }

/-- The per-job loop of IndexingAgent.run, with the position index i
threaded through so the oracles can be per-job.  Oracles: pine is the
availability of the Pinecone index and the embeddings client; embedOk i
is the success of the embedding computation plus vector upsert for job
i (a failure there is caught inside the loop and only leaves
embedding_id = None); addOk i is whether db.add for job i returns
normally (false models an exception escaping the loop body); freshId i
is the uuid4 drawn for job i.  Returns the in-memory result list, the
rows added to the session, and whether an exception escaped the loop
(which abandons the remaining jobs). -/
def indexLoop (pine : Bool) (embedOk addOk : Nat → Bool)
    (freshId : Nat → String) :
    Nat → List GeocodedJob → List IndexedRec × List DBRow × Bool
  | _, [] => ([], [], false)
  | i, job :: rest =>
    let jid := freshId i
    let eid := if pine && embedOk i then some jid else none
    if addOk i then
      let r := indexLoop pine embedOk addOk freshId (i + 1) rest
      (mkIndexedRec jid job :: r.1, mkDBRow jid job eid :: r.2.1, r.2.2)
    else ([], [], true)

/-- Observable outcome of one IndexingAgent.run call. -/
structure IndexResult where
  indexed : List IndexedRec
  committedRows : List DBRow
  committed : Bool
  commitCalls : Nat
  sessionClosed : Bool
  deriving Repr, DecidableEq

/-- IndexingAgent.run: run the loop inside one session; commit once
after the loop; on any exception from the loop or the commit, roll the
whole session back (committedRows empty); close the session in the
finally block; return the in-memory list in every case.  commitOk
models whether db.commit itself succeeds; commitCalls counts calls of
db.commit (an exception escaping the loop jumps past the commit). -/
def indexingRun (pine : Bool) (embedOk addOk : Nat → Bool)
    (freshId : Nat → String) (commitOk : Bool)
    (jobs : List GeocodedJob) : IndexResult :=
  let r := indexLoop pine embedOk addOk freshId 0 jobs
  if r.2.2 then
    { indexed := r.1, committedRows := [], committed := false,
      commitCalls := 0, sessionClosed := true }
  else if commitOk then
    { indexed := r.1, committedRows := r.2.1, committed := true,
      commitCalls := 1, sessionClosed := true }
  else
    { indexed := r.1, committedRows := [], committed := false,
      commitCalls := 1, sessionClosed := true }

/-- The expected embedding_id column of the rows written for n jobs
starting at position i: the fresh id of the job when the embedding
upsert succeeded, None otherwise. -/
def eidList (pine : Bool) (embedOk : Nat → Bool) (freshId : Nat → String) :
    Nat → Nat → List (Option String)
  | _, 0 => []
  | i, n + 1 =>
    (if pine && embedOk i then some (freshId i) else none) ::
      eidList pine embedOk freshId (i + 1) n

/- ---------------- Orchestrator: pipeline.JobDiscoveryPipeline -------- -/

/-- The state threaded through the LangGraph nodes (PipelineState). -/
structure PipelineState where
  query : String
  search_results : List PyDict
  scraped_content : List PyDict
  extracted_jobs : List ExtractedJob
  geocoded_jobs : List GeocodedJob
  indexed_jobs : List IndexedRec
  error : String
  deriving Repr, DecidableEq

/-- All external-effect oracles of one pipeline run, bundled. -/
structure Effects where
  ddgs : String → Option (List PyDict)
  fetch : String → Option String
  llm : Option (String → Option ExtractedJob)
  nominatim : String → Option (ℚ × ℚ)
  pine : Bool
  embedOk : Nat → Bool
  addOk : Nat → Bool
  freshId : Nat → String
  commitOk : Bool

/-- Initial state built by JobDiscoveryPipeline.run (query or
empty-string). -/
def initialState (query : Option String) : PipelineState :=
  { query := query.getD "", search_results := [], scraped_content := [],
    extracted_jobs := [], geocoded_jobs := [], indexed_jobs := [],
    error := "" }

/-- The search node: a stage-level exception (some e) records the tagged
error and empties the output; otherwise the agent runs. -/
def searchNode (fail : Option String) (eff : Effects)
    (st : PipelineState) : PipelineState :=
  match fail with
  | some e => { st with error := "Search error: " ++ e, search_results := [] }
  | none => { st with search_results := webSearchRun eff.ddgs st.query }

/-- The scrape node. -/
def scrapeNode (fail : Option String) (eff : Effects)
    (st : PipelineState) : PipelineState :=
  match fail with
  | some e => { st with error := "Scrape error: " ++ e, scraped_content := [] }
  | none =>
    { st with scraped_content := scraperRun eff.fetch st.search_results }

/-- The extract node. -/
def extractNode (fail : Option String) (eff : Effects)
    (st : PipelineState) : PipelineState :=
  match fail with
  | some e =>
    { st with error := "Extraction error: " ++ e, extracted_jobs := [] }
  | none =>
    { st with extracted_jobs := extractionRun eff.llm st.scraped_content }

/-- The geocode node. -/
def geocodeNode (fail : Option String) (eff : Effects)
    (st : PipelineState) : PipelineState :=
  match fail with
  | some e =>
    { st with error := "Geocoding error: " ++ e, geocoded_jobs := [] }
  | none =>
    { st with geocoded_jobs := geocodingRun eff.nominatim st.extracted_jobs }

/-- The index node. -/
def indexNode (fail : Option String) (eff : Effects)
    (st : PipelineState) : PipelineState :=
  match fail with
  | some e =>
    { st with error := "Indexing error: " ++ e, indexed_jobs := [] }
  | none =>
    { st with indexed_jobs :=
        (indexingRun eff.pine eff.embedOk eff.addOk eff.freshId
          eff.commitOk st.geocoded_jobs).indexed }

/-- JobDiscoveryPipeline.run: the five nodes in the fixed graph order,
each wrapped individually; fK = some e models stage K raising e.  The
function is total: every run returns a complete state. -/
def pipelineRun (f1 f2 f3 f4 f5 : Option String) (eff : Effects)
    (query : Option String) : PipelineState :=
  indexNode f5 eff (geocodeNode f4 eff (extractNode f3 eff
    (scrapeNode f2 eff (searchNode f1 eff (initialState query)))))

/- ---------------- Concrete example inputs ---------------- -/

/-- A scraped page whose title key is present but empty. -/
def pageEmptyTitle : PyDict :=
  { title := some "", url := some "https://x.example/a",
    snippet := some "a snippet", content := some "some page text" }

/-- A page dict without a content key. -/
def pageNoContent : PyDict :=
  { title := some "T", url := some "https://x.example/b",
    snippet := some "s" }

/-- A page dict with content, for the LLM-path example. -/
def pageWithContent : PyDict :=
  { title := some "T", url := some "https://x.example/c",
    snippet := some "s", content := some "job posting text" }

/-- An extractor oracle that returns a record without apply_url. -/
def llmNoUrl : String → Option ExtractedJob :=
  fun _ => some { job_title := "Engineer", company := "Acme",
                  location := "Pune" }

/-- Duplicate-url search hits: two queries both produced url a.com. -/
def hitA1 : PyDict :=
  { title := some "A1", url := some "a.com", snippet := some "s1",
    source_query := some "q1" }

/-- Second hit with the duplicated url a.com. -/
def hitA2 : PyDict :=
  { title := some "A2", url := some "a.com", snippet := some "s2",
    source_query := some "q2" }

/-- A hit with the distinct url b.com. -/
def hitB : PyDict :=
  { title := some "B", url := some "b.com", snippet := some "s3",
    source_query := some "q2" }

/-- A concrete geocoded job for the persistence examples. -/
def demoJob (t : String) : GeocodedJob :=
  { job_title := t, company := "Acme", location := "Bangalore",
    apply_url := some "https://x.example/apply",
    description := some "a role", lat := 12.9716, lng := 77.5946 }

/-- Three concrete jobs for the embedding-isolation example. -/
def jobs3 : List GeocodedJob := [demoJob "J1", demoJob "J2", demoJob "J3"]

/-- A concrete fresh-id oracle for the persistence examples. -/
def demoId : Nat → String :=
  fun i => if i = 0 then "u0" else if i = 1 then "u1" else "u2"

/-- The job the LLM-path example is expected to emit for
pageWithContent under llmNoUrl. -/
def jobLLMDemo : ExtractedJob :=
  { job_title := "Engineer", company := "Acme", location := "Pune",
    apply_url := some "https://x.example/c" }

/-- The page the scraper example is expected to emit for hitB. -/
def pageScrapedB : PyDict :=
  { url := some "b.com", title := some "B", snippet := some "s3",
    content := some "job page text" }

/- ======================= Theorems ======================= -/

/-- Dedup output is a sublist of its input, whatever the seen set. -/
theorem dedupByUrl_sublist (l : List PyDict) :
    ∀ seen, (dedupByUrl l seen).Sublist l := by
  induction l with
  | nil => intro seen; simp [dedupByUrl]
  | cons x xs ih =>
    intro seen
    by_cases h : dictUrl x ∈ seen
    · rw [dedupByUrl, if_pos h]; exact (ih seen).cons x
    · rw [dedupByUrl, if_neg h]; exact (ih (dictUrl x :: seen)).cons₂ x

/-- No dedup output carries a url of the seen set. -/
theorem dedupByUrl_notSeen (l : List PyDict) :
    ∀ seen, ∀ r ∈ dedupByUrl l seen, dictUrl r ∉ seen := by
  induction l with
  | nil => intro seen r hr; simp [dedupByUrl] at hr
  | cons x xs ih =>
    intro seen r hr
    by_cases h : dictUrl x ∈ seen
    · rw [dedupByUrl, if_pos h] at hr; exact ih seen r hr
    · rw [dedupByUrl, if_neg h] at hr
      rcases List.mem_cons.mp hr with rfl | hr'
      · exact h
      · intro hseen
        exact ih (dictUrl x :: seen) r hr' (List.mem_cons_of_mem _ hseen)

/-- The urls of the dedup output are pairwise distinct. -/
theorem dedupByUrl_nodup (l : List PyDict) :
    ∀ seen, ((dedupByUrl l seen).map dictUrl).Nodup := by
  induction l with
  | nil => intro seen; simp [dedupByUrl]
  | cons x xs ih =>
    intro seen
    by_cases h : dictUrl x ∈ seen
    · rw [dedupByUrl, if_pos h]; exact ih seen
    · rw [dedupByUrl, if_neg h]
      simp only [List.map_cons, List.nodup_cons]
      refine ⟨fun hmem => ?_, ih _⟩
      rcases List.mem_map.mp hmem with ⟨r, hr, hurl⟩
      exact dedupByUrl_notSeen xs (dictUrl x :: seen) r hr
        (by rw [hurl]; exact List.mem_cons_self _ _)

/-- Every input url outside the seen set survives into the output. -/
theorem dedupByUrl_covers (l : List PyDict) :
    ∀ seen, ∀ r ∈ l, dictUrl r ∉ seen →
      dictUrl r ∈ (dedupByUrl l seen).map dictUrl := by
  induction l with
  | nil => intro seen r hr; cases hr
  | cons x xs ih =>
    intro seen r hr hns
    by_cases h : dictUrl x ∈ seen
    · rw [dedupByUrl, if_pos h]
      rcases List.mem_cons.mp hr with rfl | hr'
      · exact absurd h hns
      · exact ih seen r hr' hns
    · rw [dedupByUrl, if_neg h]
      simp only [List.map_cons]
      by_cases hx : dictUrl r = dictUrl x
      · rw [hx]; exact List.mem_cons_self _ _
      · rcases List.mem_cons.mp hr with rfl | hr'
        · exact absurd rfl hx
        · refine List.mem_cons_of_mem _ (ih (dictUrl x :: seen) r hr' ?_)
          intro hmem
          rcases List.mem_cons.mp hmem with h1 | h2
          · exact hx h1
          · exact hns h2

/-- Each dedup output element is the first input element with its url. -/
theorem dedupByUrl_first (l : List PyDict) :
    ∀ seen, ∀ r ∈ dedupByUrl l seen,
      l.find? (fun x => dictUrl x == dictUrl r) = some r := by
  induction l with
  | nil => intro seen r hr; simp [dedupByUrl] at hr
  | cons x xs ih =>
    intro seen r hr
    by_cases h : dictUrl x ∈ seen
    · rw [dedupByUrl, if_pos h] at hr
      have hne : ¬(dictUrl x == dictUrl r) = true := by
        simp only [beq_iff_eq]
        intro he
        exact dedupByUrl_notSeen xs seen r hr (he ▸ h)
      rw [@List.find?_cons_of_neg _ (fun x => dictUrl x == dictUrl r) x xs hne]
      exact ih seen r hr
    · rw [dedupByUrl, if_neg h] at hr
      rcases List.mem_cons.mp hr with rfl | hr'
      · exact @List.find?_cons_of_pos _ (fun x => dictUrl x == dictUrl r) r xs (by simp)
      · have hne : ¬(dictUrl x == dictUrl r) = true := by
          simp only [beq_iff_eq]
          intro he
          exact dedupByUrl_notSeen xs (dictUrl x :: seen) r hr'
            (by rw [← he]; exact List.mem_cons_self _ _)
        rw [@List.find?_cons_of_neg _ (fun x => dictUrl x == dictUrl r) x xs hne]
        exact ih (dictUrl x :: seen) r hr'

/-- C9: the dedup pass of the Query Source keeps each url exactly once:
the output is an order-preserving sublist of the accumulated hits, its
urls are pairwise distinct, every accumulated url is represented, and
each kept hit is the first accumulated hit carrying its url. -/
theorem webSearch_dedup_spec (l : List PyDict) :
    (dedupByUrl l []).Sublist l ∧
    ((dedupByUrl l []).map dictUrl).Nodup ∧
    (∀ r ∈ l, dictUrl r ∈ (dedupByUrl l []).map dictUrl) ∧
    (∀ r ∈ dedupByUrl l [], l.find? (fun x => dictUrl x == dictUrl r) = some r) :=
  ⟨dedupByUrl_sublist l [], dedupByUrl_nodup l [],
   fun r hr => dedupByUrl_covers l [] r hr (by simp),
   fun r hr => dedupByUrl_first l [] r hr⟩

/-- C9 witness: two queries both returned a.com and one returned b.com;
the dedup output is exactly one a.com hit followed by the b.com hit. -/
theorem webSearch_dedup_spec_witness :
    hitA1 ∈ [hitA1, hitA2, hitB] ∧
    dictUrl hitA1 ∈ (dedupByUrl [hitA1, hitA2, hitB] []).map dictUrl ∧
    (dedupByUrl [hitA1, hitA2, hitB] []).map dictUrl = ["a.com", "b.com"] :=
  ⟨by decide,
   (webSearch_dedup_spec [hitA1, hitA2, hitB]).2.2.1 hitA1 (by decide),
   by decide⟩

/-- A Python slice s[:n] has at most n characters. -/
theorem pyTrunc_length_le (s : String) (n : Nat) : (pyTrunc s n).length ≤ n := by
  show (s.data.take n).length ≤ n
  rw [List.length_take]
  exact min_le_left _ _

/-- A Python slice of a non-empty string to a positive bound is
non-empty. -/
theorem pyTrunc_ne_empty (s : String) (n : Nat) (hs : s ≠ "") (hn : n ≠ 0) :
    pyTrunc s n ≠ "" := by
  obtain ⟨l⟩ := s
  cases l with
  | nil => exact absurd rfl hs
  | cons a as =>
    cases n with
    | zero => exact absurd rfl hn
    | succ m =>
      intro h
      have := congrArg String.data h
      simp [pyTrunc] at this

/-- A successful single-url scrape yields a non-empty text of at most
5000 characters. -/
theorem scrapeUrl_spec (fetch : String → Option String) (url c : String)
    (h : scrapeUrl fetch url = some c) : c ≠ "" ∧ c.length ≤ 5000 := by
  unfold scrapeUrl at h
  cases hf : fetch url with
  | none => rw [hf] at h; cases h
  | some text =>
    rw [hf] at h
    dsimp only at h
    by_cases ht : text = ""
    · rw [if_pos ht] at h; cases h
    · rw [if_neg ht] at h
      injection h with h
      subst h
      exact ⟨pyTrunc_ne_empty text 5000 ht (by decide),
        pyTrunc_length_le text 5000⟩

/-- Every page the scrape loop emits carries non-empty content of at
most 5000 characters. -/
theorem scrapeLoop_content (fetch : String → Option String) :
    ∀ l, ∀ p ∈ scrapeLoop fetch l,
      ∃ c, p.content = some c ∧ c ≠ "" ∧ c.length ≤ 5000 := by
  intro l
  induction l with
  | nil => intro p hp; simp [scrapeLoop] at hp
  | cons item rest ih =>
    intro p hp
    simp only [scrapeLoop] at hp
    by_cases hu : item.url.getD "" = ""
    · rw [if_pos hu] at hp; exact ih p hp
    · rw [if_neg hu] at hp
      cases hcu : scrapeUrl fetch (item.url.getD "") with
      | none => rw [hcu] at hp; exact ih p hp
      | some c =>
        rw [hcu] at hp
        rcases List.mem_cons.mp hp with rfl | hp'
        · exact ⟨c, rfl, (scrapeUrl_spec fetch _ c hcu).1,
            (scrapeUrl_spec fetch _ c hcu).2⟩
        · exact ih p hp'

/-- C10: every page record the Content Fetcher emits has a non-empty
content string of at most 5000 characters, and a hit with an empty url,
a failed fetch, or an empty stripped text contributes nothing to the
output. -/
theorem scraper_content_invariant (fetch : String → Option String)
    (hits : List PyDict) :
    (∀ p ∈ scraperRun fetch hits,
      ∃ c, p.content = some c ∧ c ≠ "" ∧ c.length ≤ 5000) ∧
    (∀ item rest, item.url.getD "" = "" →
      scrapeLoop fetch (item :: rest) = scrapeLoop fetch rest) ∧
    (∀ item rest, fetch (item.url.getD "") = none →
      scrapeLoop fetch (item :: rest) = scrapeLoop fetch rest) ∧
    (∀ item rest, fetch (item.url.getD "") = some "" →
      scrapeLoop fetch (item :: rest) = scrapeLoop fetch rest) := by
  refine ⟨fun p hp => scrapeLoop_content fetch _ p hp, ?_, ?_, ?_⟩
  · intro item rest hu
    simp only [scrapeLoop]
    rw [if_pos hu]
  · intro item rest hf
    simp only [scrapeLoop]
    by_cases hu : item.url.getD "" = ""
    · rw [if_pos hu]
    · rw [if_neg hu]
      have : scrapeUrl fetch (item.url.getD "") = none := by
        unfold scrapeUrl; rw [hf]
      rw [this]
  · intro item rest hf
    simp only [scrapeLoop]
    by_cases hu : item.url.getD "" = ""
    · rw [if_pos hu]
    · rw [if_neg hu]
      have : scrapeUrl fetch (item.url.getD "") = none := by
        unfold scrapeUrl; rw [hf]; simp
      rw [this]

/-- A constant successful fetch oracle for the scraper example. -/
theorem scraper_content_invariant_witness :
    pageScrapedB ∈ scraperRun (fun _ => some "job page text") [hitB] ∧
    (∃ c, pageScrapedB.content = some c ∧ c ≠ "" ∧ c.length ≤ 5000) :=
  ⟨by decide,
   (scraper_content_invariant (fun _ => some "job page text") [hitB]).1 _
     (by decide)⟩

/-- The scrape loop never emits more pages than it consumes. -/
theorem scrapeLoop_length_le (fetch : String → Option String) :
    ∀ l, (scrapeLoop fetch l).length ≤ l.length := by
  intro l
  induction l with
  | nil => simp [scrapeLoop]
  | cons item rest ih =>
    simp only [scrapeLoop]
    by_cases hu : item.url.getD "" = ""
    · rw [if_pos hu]; exact ih.trans (Nat.le_succ _)
    · rw [if_neg hu]
      cases hcu : scrapeUrl fetch (item.url.getD "") with
      | none => exact ih.trans (Nat.le_succ _)
      | some c => simpa using Nat.succ_le_succ ih

/-- The LLM extraction loop never emits more jobs than pages. -/
theorem extractLoopLLM_length_le (f : String → Option ExtractedJob) :
    ∀ l, (extractLoopLLM f l).length ≤ l.length := by
  intro l
  induction l with
  | nil => simp [extractLoopLLM]
  | cons item rest ih =>
    simp only [extractLoopLLM]
    by_cases hc : item.content.getD "" = ""
    · rw [if_pos hc]; exact ih.trans (Nat.le_succ _)
    · rw [if_neg hc]
      cases f (pyTrunc (item.content.getD "") 3000) with
      | none => exact ih.trans (Nat.le_succ _)
      | some r => simpa using Nat.succ_le_succ ih

/-- The indexing loop never records more jobs than it receives. -/
theorem indexLoop_length_le (pine : Bool) (eo ao : Nat → Bool)
    (fid : Nat → String) :
    ∀ jobs i, ((indexLoop pine eo ao fid i jobs).1).length ≤ jobs.length := by
  intro jobs
  induction jobs with
  | nil => intro i; simp [indexLoop]
  | cons job rest ih =>
    intro i
    simp only [indexLoop]
    by_cases ha : ao i
    · rw [if_pos ha]; simpa using Nat.succ_le_succ (ih (i + 1))
    · rw [if_neg ha]; exact Nat.zero_le _

/-- The in-memory result list of IndexingAgent.run is the list built by
the per-job loop, in every success or failure branch. -/
theorem indexingRun_indexed (pine : Bool) (eo ao : Nat → Bool)
    (fid : Nat → String) (co : Bool) (jobs : List GeocodedJob) :
    (indexingRun pine eo ao fid co jobs).indexed =
      (indexLoop pine eo ao fid 0 jobs).1 := by
  unfold indexingRun
  by_cases h : (indexLoop pine eo ao fid 0 jobs).2.2
  · simp [h]
  · by_cases hc : co
    · simp [h, hc]
    · simp [h, hc]

/-- C6: stage output counts never grow — the scraper, the extractor
(under either strategy), the geocoder and the indexer each emit at most
as many items as they consume. -/
theorem pipeline_counts_monotone :
    (∀ fetch hits, (scraperRun fetch hits).length ≤ hits.length) ∧
    (∀ llm scraped, (extractionRun llm scraped).length ≤ scraped.length) ∧
    (∀ nm jobs, (geocodingRun nm jobs).length ≤ jobs.length) ∧
    (∀ pine eo ao fid co jobs,
      (indexingRun pine eo ao fid co jobs).indexed.length ≤ jobs.length) := by
  refine ⟨fun fetch hits => ?_, fun llm scraped => ?_, fun nm jobs => ?_,
    fun pine eo ao fid co jobs => ?_⟩
  · calc (scrapeLoop fetch (hits.take 10)).length
        ≤ (hits.take 10).length := scrapeLoop_length_le fetch _
      _ ≤ hits.length := by rw [List.length_take]; exact min_le_right _ _
  · cases llm with
    | none => simp [extractionRun, mockExtract]
    | some f => exact extractLoopLLM_length_le f scraped
  · simp [geocodingRun]
  · rw [indexingRun_indexed]
    exact indexLoop_length_le pine eo ao fid jobs 0

/-- C8: the Coordinate Resolver batch wrapper returns exactly one job
per input job, in order, and every field other than lat and lng is
copied unchanged — erasing the coordinates gives back the input list. -/
theorem geocode_batch_frame (nm : String → Option (ℚ × ℚ))
    (jobs : List ExtractedJob) :
    (geocodingRun nm jobs).length = jobs.length ∧
    (geocodingRun nm jobs).map GeocodedJob.toExtractedJob = jobs := by
  refine ⟨by simp [geocodingRun], ?_⟩
  induction jobs with
  | nil => rfl
  | cons j rest ih =>
    simp only [geocodingRun, List.map_cons] at ih ⊢
    exact congrArg₂ List.cons rfl ih

/-- C5: the Coordinate Resolver returns the default centre immediately
on an empty location; on a cache hit of the lowercased, stripped
location (first table key in iteration order, by cacheLookup) it
returns the cached coordinates independently of the network oracle; on
a cache miss whose external lookup fails or finds nothing it returns
the default centre; on a successful lookup it returns its coordinates.
The function is total, modelling that no exception escapes. -/
theorem geocode_resolve_spec (nominatim : String → Option (ℚ × ℚ))
    (location : String) :
    (location = "" → geocodeLocation nominatim location = DEFAULT_CENTER) ∧
    (location ≠ "" → ∀ c, cacheLookup (pyStrip (pyLower location)) = some c →
      geocodeLocation nominatim location = c ∧
      (∀ nm2, geocodeLocation nm2 location = c)) ∧
    (location ≠ "" → cacheLookup (pyStrip (pyLower location)) = none →
      nominatim (location ++ ", India") = none →
      geocodeLocation nominatim location = DEFAULT_CENTER) ∧
    (location ≠ "" → cacheLookup (pyStrip (pyLower location)) = none →
      ∀ c, nominatim (location ++ ", India") = some c →
      geocodeLocation nominatim location = c) := by
  have hit : ∀ (nm : String → Option (ℚ × ℚ)) (c : ℚ × ℚ), location ≠ "" →
      cacheLookup (pyStrip (pyLower location)) = some c →
      geocodeLocation nm location = c := by
    intro nm c h hc
    simp only [geocodeLocation, if_neg h, hc]
  refine ⟨fun h => by simp only [geocodeLocation, if_pos h],
    fun h c hc => ⟨hit nominatim c h hc, fun nm2 => hit nm2 c h hc⟩,
    fun h hc hn => ?_, fun h hc c hn => ?_⟩
  · simp only [geocodeLocation, if_neg h, hc, hn]
  · simp only [geocodeLocation, if_neg h, hc, hn]

/-- C5 witness: the three testable examples of the spec — an empty
location, the cached Koramangala-Bangalore substring hit (with an
oracle that would answer differently, showing the network is not
consulted), and a cache miss whose lookup fails. -/
theorem geocode_resolve_spec_witness :
    geocodeLocation (fun _ => none) "" = DEFAULT_CENTER ∧
    geocodeLocation (fun _ => some (1, 2)) "Koramangala, Bangalore" =
      (12.9716, 77.5946) ∧
    geocodeLocation (fun _ => none) "Timbuktu" = DEFAULT_CENTER :=
  ⟨(geocode_resolve_spec (fun _ => none) "").1 rfl,
   ((geocode_resolve_spec (fun _ => some (1, 2))
      "Koramangala, Bangalore").2.1 (by decide) (12.9716, 77.5946) rfl).1,
   (geocode_resolve_spec (fun _ => none) "Timbuktu").2.2.1
     (by decide) rfl rfl⟩

/-- C4 counterexample: under the fallback strategy a page without a
content key is NOT skipped — it yields one output job. -/
theorem extraction_skip_counterexample :
    extractionRun none [pageNoContent] =
      [{ job_title := "T", company := "Unknown Company",
         location := "India", apply_url := some "https://x.example/b",
         description := some "s" }] := rfl

/-- C4 amended: only the LLM strategy skips pages with empty or absent
content (its loop is insensitive to such pages); the fallback strategy
emits exactly one job per input page, whatever its content. -/
theorem extraction_skip_amended :
    (∀ f scraped, extractLoopLLM f scraped =
      extractLoopLLM f
        (scraped.filter (fun p => !(p.content.getD "" == "")))) ∧
    (∀ scraped, (extractionRun none scraped).length = scraped.length) := by
  constructor
  · intro f scraped
    induction scraped with
    | nil => rfl
    | cons item rest ih =>
      rw [List.filter_cons]
      by_cases hc : item.content.getD "" = ""
      · have hpred : (!(item.content.getD "" == "")) = false := by simp [hc]
        rw [hpred]
        simp only [Bool.false_eq_true, if_false]
        simp only [extractLoopLLM, if_pos hc]
        exact ih
      · have hpred : (!(item.content.getD "" == "")) = true := by simp [hc]
        rw [hpred, if_pos rfl]
        simp only [extractLoopLLM, if_neg hc]
        cases f (pyTrunc (item.content.getD "") 3000) with
        | none => exact ih
        | some r => rw [ih]
  · intro scraped
    simp [extractionRun, mockExtract]

/-- C3 counterexample: under the fallback strategy a page whose title
key is present but empty yields a job with an empty job_title. -/
theorem extraction_defaults_counterexample :
    (extractionRun none [pageEmptyTitle]).map (fun j => j.job_title) =
      [""] := rfl

/-- C3 amended: under the fallback strategy company is always the
non-empty default, job_title is the page title (defaulting to Software
Engineer only when the title key is absent, hence empty exactly when
the page carries an empty title) and apply_url is always the page url;
under the LLM strategy every output job stems from an input page and a
model answer, with apply_url replaced by the page url exactly when the
model left it null or empty. -/
theorem extraction_defaults_amended :
    (∀ scraped, (extractionRun none scraped).map (fun j => j.company) =
      scraped.map (fun _ => "Unknown Company")) ∧
    (∀ scraped, (extractionRun none scraped).map (fun j => j.job_title) =
      scraped.map (fun p => p.title.getD "Software Engineer")) ∧
    (∀ scraped, (extractionRun none scraped).map (fun j => j.apply_url) =
      scraped.map (fun p => some (p.url.getD ""))) ∧
    (∀ f scraped j, j ∈ extractLoopLLM f scraped →
      ∃ p ∈ scraped, ∃ r, f (pyTrunc (p.content.getD "") 3000) = some r ∧
        ((r.apply_url.getD "" = "" ∧
            j = { r with apply_url := some (p.url.getD "") }) ∨
         (r.apply_url.getD "" ≠ "" ∧ j = r))) := by
  refine ⟨fun scraped => ?_, fun scraped => ?_, fun scraped => ?_,
    fun f scraped j hj => ?_⟩
  · show (mockExtract scraped).map _ = _
    rw [mockExtract, List.map_map]; rfl
  · show (mockExtract scraped).map _ = _
    rw [mockExtract, List.map_map]; rfl
  · show (mockExtract scraped).map _ = _
    rw [mockExtract, List.map_map]; rfl
  · induction scraped with
    | nil => simp [extractLoopLLM] at hj
    | cons item rest ih =>
      simp only [extractLoopLLM] at hj
      by_cases hc : item.content.getD "" = ""
      · rw [if_pos hc] at hj
        obtain ⟨p, hp, hrest⟩ := ih hj
        exact ⟨p, List.mem_cons_of_mem _ hp, hrest⟩
      · rw [if_neg hc] at hj
        cases hr : f (pyTrunc (item.content.getD "") 3000) with
        | none =>
          rw [hr] at hj
          obtain ⟨p, hp, hrest⟩ := ih hj
          exact ⟨p, List.mem_cons_of_mem _ hp, hrest⟩
        | some r =>
          rw [hr] at hj
          rcases List.mem_cons.mp hj with heq | hj'
          · refine ⟨item, List.mem_cons_self _ _, r, hr, ?_⟩
            by_cases hu : r.apply_url.getD "" = ""
            · exact Or.inl ⟨hu, by rw [heq, if_pos hu]⟩
            · exact Or.inr ⟨hu, by rw [heq, if_neg hu]⟩
          · obtain ⟨p, hp, hrest⟩ := ih hj'
            exact ⟨p, List.mem_cons_of_mem _ hp, hrest⟩

/-- C3 witness: a model answer without apply_url on a page with content
is emitted with the page url patched in. -/
theorem extraction_defaults_amended_witness :
    jobLLMDemo ∈ extractLoopLLM llmNoUrl [pageWithContent] ∧
    (∃ p ∈ [pageWithContent], ∃ r,
      llmNoUrl (pyTrunc (p.content.getD "") 3000) = some r ∧
      ((r.apply_url.getD "" = "" ∧
          jobLLMDemo = { r with apply_url := some (p.url.getD "") }) ∨
       (r.apply_url.getD "" ≠ "" ∧ jobLLMDemo = r))) :=
  ⟨by decide,
   extraction_defaults_amended.2.2.2 llmNoUrl [pageWithContent]
     jobLLMDemo (by decide)⟩

/-- The expected embedding-id column has one entry per job. -/
theorem eidList_length (pine : Bool) (eo : Nat → Bool) (fid : Nat → String) :
    ∀ n i, (eidList pine eo fid i n).length = n := by
  intro n
  induction n with
  | zero => intro i; rfl
  | succ m ih => intro i; simp [eidList, ih]

/-- When every db.add in range succeeds, the loop raises nothing,
records every job, and writes rows whose embedding-id column is
exactly the per-job success pattern. -/
theorem indexLoop_all_ok (pine : Bool) (eo ao : Nat → Bool)
    (fid : Nat → String) :
    ∀ (jobs : List GeocodedJob) (i : Nat),
      (∀ m, m < jobs.length → ao (i + m) = true) →
      (indexLoop pine eo ao fid i jobs).2.2 = false ∧
      (indexLoop pine eo ao fid i jobs).1.length = jobs.length ∧
      (indexLoop pine eo ao fid i jobs).2.1.map (fun row => row.embedding_id) =
        eidList pine eo fid i jobs.length := by
  intro jobs
  induction jobs with
  | nil => intro i h; exact ⟨rfl, rfl, rfl⟩
  | cons job rest ih =>
    intro i h
    have h0 : ao i = true := by simpa using h 0 (Nat.succ_pos _)
    have hr := ih (i + 1) (fun m hm => by
      have he : i + 1 + m = i + (m + 1) := by omega
      rw [he]; exact h (m + 1) (Nat.succ_lt_succ hm))
    simp only [indexLoop, h0, if_true]
    refine ⟨hr.1, by simp [hr.2.1], ?_⟩
    simp only [List.map_cons, List.length_cons, eidList, mkDBRow, hr.2.2]

/-- When the db.add calls succeed up to position k and fail at k (with
k inside the batch), the loop raises and the in-memory list holds
exactly the k jobs processed before the failure. -/
theorem indexLoop_failure (pine : Bool) (eo ao : Nat → Bool)
    (fid : Nat → String) :
    ∀ (jobs : List GeocodedJob) (i k : Nat),
      (∀ m, m < k → ao (i + m) = true) → k < jobs.length →
      ao (i + k) = false →
      (indexLoop pine eo ao fid i jobs).2.2 = true ∧
      (indexLoop pine eo ao fid i jobs).1.length = k := by
  intro jobs
  induction jobs with
  | nil => intro i k h hk hf; cases hk
  | cons job rest ih =>
    intro i k h hk hf
    cases k with
    | zero =>
      have h0 : ao i = false := by simpa using hf
      simp [indexLoop, h0]
    | succ m =>
      have h0 : ao i = true := by simpa using h 0 (Nat.succ_pos _)
      have hr := ih (i + 1) m
        (fun j hj => by
          have he : i + 1 + j = i + (j + 1) := by omega
          rw [he]; exact h (j + 1) (Nat.succ_lt_succ hj))
        (Nat.lt_of_succ_lt_succ hk)
        (by
          have he : i + 1 + m = i + (m + 1) := by omega
          rw [he]; exact hf)
      simp only [indexLoop, h0, if_true]
      exact ⟨hr.1, by simp [hr.2]⟩

/-- C7: with the vector index enabled and a healthy relational store,
an embedding failure for one job only nulls that job's embedding_id:
every row is still committed, and the embedding-id column equals the
per-job success pattern. -/
theorem indexing_embed_isolation (eo ao : Nat → Bool) (fid : Nat → String)
    (jobs : List GeocodedJob)
    (hall : ∀ m, m < jobs.length → ao m = true) :
    (indexingRun true eo ao fid true jobs).committed = true ∧
    (indexingRun true eo ao fid true jobs).indexed.length = jobs.length ∧
    (indexingRun true eo ao fid true jobs).committedRows.length =
      jobs.length ∧
    (indexingRun true eo ao fid true jobs).committedRows.map
      (fun row => row.embedding_id) = eidList true eo fid 0 jobs.length := by
  have h := indexLoop_all_ok true eo ao fid jobs 0
    (fun m hm => by simpa using hall m hm)
  simp only [indexingRun]
  rw [h.1]
  simp only [Bool.false_eq_true, if_false, if_pos rfl]
  refine ⟨rfl, h.2.1, ?_, h.2.2⟩
  have := congrArg List.length h.2.2
  simpa [eidList_length] using this

/-- C7 witness: three jobs where only the second embedding upsert
fails — all three rows committed, embedding ids u0, null, u2. -/
theorem indexing_embed_isolation_witness :
    (indexingRun true (fun i => !(i == 1)) (fun _ => true) demoId true
      jobs3).committed = true ∧
    (indexingRun true (fun i => !(i == 1)) (fun _ => true) demoId true
      jobs3).committedRows.map (fun row => row.embedding_id) =
        [some "u0", none, some "u2"] := by
  have h := indexing_embed_isolation (fun i => !(i == 1)) (fun _ => true)
    demoId jobs3 (fun m _ => rfl)
  exact ⟨h.1, by rw [h.2.2.2]; rfl⟩

/-- C2 counterexample: a db.add exception inside the loop jumps past
the commit, so zero commits are attempted for that batch — refuting
that exactly one commit is attempted for every batch. -/
theorem indexing_commit_counterexample :
    (indexingRun true (fun _ => true) (fun _ => false) demoId true
      [demoJob "J1"]).commitCalls = 0 := rfl

/-- C2 amended: at most one commit is attempted per batch — exactly one
when the per-job loop finishes without raising; on an exception from
the loop or the commit the whole batch is rolled back (nothing durably
written); a successful commit writes all rows the loop added; the
session is always closed; and the call always returns the in-memory
list built by the loop, which on an add-failure at position k holds
exactly the k records accumulated before the failure (records that
were never durably committed). -/
theorem indexing_batch_commit (pine : Bool) (eo ao : Nat → Bool)
    (fid : Nat → String) (co : Bool) (jobs : List GeocodedJob) :
    (indexingRun pine eo ao fid co jobs).sessionClosed = true ∧
    (indexingRun pine eo ao fid co jobs).commitCalls ≤ 1 ∧
    ((indexLoop pine eo ao fid 0 jobs).2.2 = false →
      (indexingRun pine eo ao fid co jobs).commitCalls = 1) ∧
    ((indexLoop pine eo ao fid 0 jobs).2.2 = true ∨ co = false →
      (indexingRun pine eo ao fid co jobs).committed = false ∧
      (indexingRun pine eo ao fid co jobs).committedRows = []) ∧
    ((indexingRun pine eo ao fid co jobs).committed = true →
      (indexingRun pine eo ao fid co jobs).committedRows =
        (indexLoop pine eo ao fid 0 jobs).2.1) ∧
    (indexingRun pine eo ao fid co jobs).indexed =
      (indexLoop pine eo ao fid 0 jobs).1 ∧
    (∀ k, (∀ m, m < k → ao m = true) → k < jobs.length → ao k = false →
      (indexingRun pine eo ao fid co jobs).indexed.length = k) := by
  refine ⟨?_, ?_, ?_, ?_, ?_, indexingRun_indexed pine eo ao fid co jobs, ?_⟩
  · simp only [indexingRun]
    by_cases h : (indexLoop pine eo ao fid 0 jobs).2.2 <;>
      by_cases hc : co <;> simp [h, hc]
  · simp only [indexingRun]
    by_cases h : (indexLoop pine eo ao fid 0 jobs).2.2 <;>
      by_cases hc : co <;> simp [h, hc]
  · intro h
    simp only [indexingRun]
    rw [h]
    by_cases hc : co <;> simp [hc]
  · intro h
    simp only [indexingRun]
    rcases h with h | h
    · rw [h]; simp
    · by_cases hl : (indexLoop pine eo ao fid 0 jobs).2.2 <;> simp [hl, h]
  · intro h
    simp only [indexingRun] at h ⊢
    by_cases hl : (indexLoop pine eo ao fid 0 jobs).2.2
    · simp [hl] at h
    · by_cases hc : co
      · simp [hl, hc]
      · simp [hl, hc] at h
  · intro k hpre hk hf
    rw [indexingRun_indexed]
    exact (indexLoop_failure pine eo ao fid jobs 0 k
      (fun m hm => by simpa using hpre m hm) hk (by simpa using hf)).2

/-- C2 witness: two jobs where db.add fails on the second — the call
returns one in-memory record while nothing was committed. -/
theorem indexing_batch_commit_witness :
    (indexingRun true (fun _ => true) (fun i => i == 0) demoId true
      [demoJob "J1", demoJob "J2"]).indexed.length = 1 ∧
    (indexingRun true (fun _ => true) (fun i => i == 0) demoId true
      [demoJob "J1", demoJob "J2"]).committed = false ∧
    (indexingRun true (fun _ => true) (fun i => i == 0) demoId true
      [demoJob "J1", demoJob "J2"]).committedRows = [] := by
  have h := indexing_batch_commit true (fun _ => true) (fun i => i == 0)
    demoId true [demoJob "J1", demoJob "J2"]
  refine ⟨h.2.2.2.2.2.2 1 (fun m hm => ?_) (by decide) (by decide),
    (h.2.2.2.1 (Or.inl rfl)).1, (h.2.2.2.1 (Or.inl rfl)).2⟩
  have hm0 : m = 0 := by omega
  subst hm0
  rfl

/-- Either extraction strategy yields nothing on an empty page list. -/
theorem extractionRun_nil (llm : Option (String → Option ExtractedJob)) :
    extractionRun llm [] = [] := by
  cases llm <;> rfl

/-- Indexing an empty batch returns an empty in-memory list. -/
theorem indexingRun_indexed_nil (pine : Bool) (eo ao : Nat → Bool)
    (fid : Nat → String) (co : Bool) :
    (indexingRun pine eo ao fid co []).indexed = [] := by
  rw [indexingRun_indexed]; rfl

/-- C1: a stage exception is recorded as StageName error cause in the
error slot, that stage's output becomes empty, and all later stages
still execute on the empty input — in particular a scrape-stage failure
leaves extracted, geocoded and indexed outputs all empty while the run
still produces a complete state (pipelineRun is total) whose error
field is the scrape message.  Shown here for each of the five stages
failing alone. -/
theorem pipeline_stage_failure (eff : Effects) (q : Option String)
    (e : String) :
    ((pipelineRun (some e) none none none none eff q).search_results = [] ∧
     (pipelineRun (some e) none none none none eff q).scraped_content = [] ∧
     (pipelineRun (some e) none none none none eff q).extracted_jobs = [] ∧
     (pipelineRun (some e) none none none none eff q).geocoded_jobs = [] ∧
     (pipelineRun (some e) none none none none eff q).indexed_jobs = [] ∧
     (pipelineRun (some e) none none none none eff q).error =
       "Search error: " ++ e) ∧
    ((pipelineRun none (some e) none none none eff q).scraped_content = [] ∧
     (pipelineRun none (some e) none none none eff q).extracted_jobs = [] ∧
     (pipelineRun none (some e) none none none eff q).geocoded_jobs = [] ∧
     (pipelineRun none (some e) none none none eff q).indexed_jobs = [] ∧
     (pipelineRun none (some e) none none none eff q).error =
       "Scrape error: " ++ e ∧
     (pipelineRun none (some e) none none none eff q).query = q.getD "") ∧
    ((pipelineRun none none (some e) none none eff q).extracted_jobs = [] ∧
     (pipelineRun none none (some e) none none eff q).geocoded_jobs = [] ∧
     (pipelineRun none none (some e) none none eff q).indexed_jobs = [] ∧
     (pipelineRun none none (some e) none none eff q).error =
       "Extraction error: " ++ e) ∧
    ((pipelineRun none none none (some e) none eff q).geocoded_jobs = [] ∧
     (pipelineRun none none none (some e) none eff q).indexed_jobs = [] ∧
     (pipelineRun none none none (some e) none eff q).error =
       "Geocoding error: " ++ e) ∧
    ((pipelineRun none none none none (some e) eff q).indexed_jobs = [] ∧
     (pipelineRun none none none none (some e) eff q).error =
       "Indexing error: " ++ e) := by
  refine ⟨⟨?_, ?_, ?_, ?_, ?_, ?_⟩, ⟨?_, ?_, ?_, ?_, ?_, ?_⟩,
    ⟨?_, ?_, ?_, ?_⟩, ⟨?_, ?_, ?_⟩, ⟨?_, ?_⟩⟩ <;>
  simp [pipelineRun, searchNode, scrapeNode, extractNode, geocodeNode,
    indexNode, initialState, scraperRun, scrapeLoop, extractionRun_nil,
    geocodingRun, indexingRun_indexed_nil]

end JobMapper
